import Mathlib

/-!
Verification development for the ForgeLedger ledger core.

The repository ships the governance contracts (`Forge/Contracts/*.md`), the
frontend type declarations (`frontend/src/types/index.ts`) and the frontend
Axios API client.  The backend business-logic layer (FastAPI services and
repositories described by `phases.md`) is declared by those contracts but its
implementation files are not part of the repository snapshot, so the ledger
core below is modelled from the specification's words and the contracts, while
the API-client embedding follows the shipped TypeScript source directly.
-/

namespace ForgeLedger

/-- Transaction / category direction: exactly the two recognized literals. -/
inductive TxType where
  | income
  | expense
deriving DecidableEq, Repr

/-- Calendar date (year, month, day). -/
structure CalDate where
  year : Nat
  month : Nat
  day : Nat
deriving DecidableEq, Repr

/-- Gregorian leap-year rule. -/
def isLeapYear (y : Nat) : Bool :=
  (y % 4 == 0 && y % 100 != 0) || (y % 400 == 0)

/-- Number of days in a month of a given year. -/
def daysInMonth (y m : Nat) : Nat :=
  if m = 2 then (if isLeapYear y then 29 else 28)
  else if m = 4 ∨ m = 6 ∨ m = 9 ∨ m = 11 then 30
  else 31

/-- Validity of a calendar date. -/
def validDate (d : CalDate) : Bool :=
  1 ≤ d.month && d.month ≤ 12 && 1 ≤ d.day && d.day ≤ daysInMonth d.year d.month

/-- Injective key on valid dates realising the chronological order
(months and days are both below 64). -/
def dateKey (d : CalDate) : Nat :=
  d.year * 4096 + d.month * 64 + d.day

/-- Category record: surrogate id, name, direction. -/
structure Category where
  id : Nat
  name : String
  ctype : TxType
deriving DecidableEq, Repr

/-- Transaction record.  `amount` is kept in exact fixed-point cents
(`DECIMAL(10,2)` of `schema.md`), never in binary floating point.
`created_at` / `updated_at` are instants of the store's monotone clock. -/
structure Transaction where
  id : Nat
  amount : Int
  ttype : TxType
  category_id : Nat
  date : CalDate
  description : Option String
  created_at : Nat
  updated_at : Nat
deriving DecidableEq, Repr

/-- Typed failures of the core (spec section 7). -/
inductive LedgerError where
  | validationError (violations : List (String × String × String))
  | notFoundError
  | duplicateNameError
  | typeMismatchError
  | categoryInUseError (count : Nat)
deriving DecidableEq, Repr

/-- Whole-store state: the two record collections, surrogate-id counters, a
monotone instant clock for timestamps and the injected reference date. -/
structure Store where
  categories : List Category
  transactions : List Transaction
  nextCategoryId : Nat
  nextTransactionId : Nat
  clock : Nat
  today : CalDate
deriving DecidableEq, Repr

/-- Leading/trailing-whitespace removal on character lists. -/
def trimChars (l : List Char) : List Char :=
  (((l.dropWhile Char.isWhitespace).reverse).dropWhile Char.isWhitespace).reverse

/-- Modelled from the spec: the validation engine trims leading/trailing
whitespace of textual fields (spec section 4.4). -/
def trimStr (s : String) : String :=
  ⟨trimChars s.data⟩

/-- Largest representable amount in cents: DECIMAL(10,2) means at most ten
digits in total of which two are fractional. -/
def amountMaxCents : Nat := 9999999999

/-- Modelled from the spec: field-level validation of the validation engine
(spec section 4.4); the missing backend service collects every violation as a
`(field, message, code)` triple instead of stopping at the first. -/
def validateTransactionFields (today : CalDate) (amount : Int) (date : CalDate)
    (description : Option String) : List (String × String × String) :=
  (if amount ≤ 0 then
     [("amount", "must be a positive decimal", "amount_not_positive")]
   else if (amountMaxCents : Int) < amount then
     [("amount", "must have at most 10 total digits", "amount_too_large")]
   else [])
  ++ (if validDate date then
        (if dateKey today < dateKey date then
           [("date", "must not be in the future", "date_in_future")]
         else [])
      else [("date", "must be a valid calendar date", "date_invalid")])
  ++ (match description with
      | none => []
      | some s =>
        if 500 < (trimStr s).length then
          [("description", "must be at most 500 characters", "description_too_long")]
        else [])

/-- Category lookup by id. -/
def findCategory (s : Store) (id : Nat) : Option Category :=
  s.categories.find? (fun c => c.id == id)

/-- Transaction lookup by id. -/
def findTransaction (s : Store) (id : Nat) : Option Transaction :=
  s.transactions.find? (fun t => t.id == id)

/-- Number of transactions referencing a category. -/
def refCount (s : Store) (categoryId : Nat) : Nat :=
  (s.transactions.filter (fun t => t.category_id == categoryId)).length

/-- Modelled from the spec: the referential-integrity guard on transaction
create/update (spec section 4.3) — resolve `category_id`, `NotFoundError`
when absent, `TypeMismatchError` when the direction disagrees. -/
def resolveCategory (s : Store) (categoryId : Nat) (ty : TxType) :
    Except LedgerError Category :=
  match findCategory s categoryId with
  | none => .error .notFoundError
  | some c => if c.ctype = ty then .ok c else .error .typeMismatchError

/-- Modelled from the spec: `create` of the transaction store (spec
section 4.2) — validation engine first, then the integrity guard, then
persistence with a fresh surrogate id and `created_at`. -/
def createTransaction (s : Store) (amount : Int) (ty : TxType) (categoryId : Nat)
    (date : CalDate) (description : Option String) :
    Except LedgerError (Store × Transaction) :=
  match validateTransactionFields s.today amount date description with
  | [] =>
    match resolveCategory s categoryId ty with
    | .error e => .error e
    | .ok _ =>
      let t : Transaction :=
        { id := s.nextTransactionId, amount := amount, ttype := ty,
          category_id := categoryId, date := date,
          description := description.map trimStr,
          created_at := s.clock, updated_at := s.clock }
      .ok ({ s with
             transactions := t :: s.transactions,
             nextTransactionId := s.nextTransactionId + 1,
             clock := s.clock + 1 }, t)
  | vs => .error (.validationError vs)

/-- Field subset supplied to a transaction update; an absent field keeps the
stored value (`TransactionUpdate` of `frontend/src/types/index.ts`, every
field optional). -/
structure TransactionPatch where
  amount : Option Int
  ttype : Option TxType
  category_id : Option Nat
  date : Option CalDate
  description : Option (Option String)
deriving DecidableEq, Repr

/-- Modelled from the spec: `update` of the transaction store (spec
section 4.2) — full validation and integrity check re-run against the merged
record, new `updated_at`, `created_at` untouched. -/
def updateTransaction (s : Store) (id : Nat) (p : TransactionPatch) :
    Except LedgerError (Store × Transaction) :=
  match findTransaction s id with
  | none => .error .notFoundError
  | some t =>
    let amount := p.amount.getD t.amount
    let ty := p.ttype.getD t.ttype
    let categoryId := p.category_id.getD t.category_id
    let date := p.date.getD t.date
    let description := p.description.getD t.description
    match validateTransactionFields s.today amount date description with
    | [] =>
      match resolveCategory s categoryId ty with
      | .error e => .error e
      | .ok _ =>
        let t' : Transaction :=
          { id := t.id, amount := amount, ttype := ty, category_id := categoryId,
            date := date, description := description.map trimStr,
            created_at := t.created_at, updated_at := s.clock }
        .ok ({ s with
               transactions := s.transactions.map (fun u => if u.id = id then t' else u),
               clock := s.clock + 1 }, t')
    | vs => .error (.validationError vs)

/-- Modelled from the spec: `delete` of the transaction store (spec
section 4.2) — hard delete; an absent id yields `NotFoundError`, never
silent success. -/
def deleteTransaction (s : Store) (id : Nat) : Except LedgerError Store :=
  match findTransaction s id with
  | none => .error .notFoundError
  | some _ =>
    .ok { s with
          transactions := s.transactions.filter (fun t => t.id != id),
          clock := s.clock + 1 }

/-- Modelled from the spec: shape checks of a category name (spec
section 4.1). -/
def validateCategoryName (name : String) : List (String × String × String) :=
  if (trimStr name).length = 0 then
    [("name", "must be non-empty", "name_empty")]
  else if 100 < name.length then
    [("name", "must be at most 100 characters", "name_too_long")]
  else []

/-- Modelled from the spec: `create` of the category registry (spec
section 4.1) — global name uniqueness regardless of type. -/
def createCategory (s : Store) (name : String) (ty : TxType) :
    Except LedgerError (Store × Category) :=
  match validateCategoryName name with
  | [] =>
    if s.categories.any (fun c => c.name == name) then
      .error .duplicateNameError
    else
      let c : Category := { id := s.nextCategoryId, name := name, ctype := ty }
      .ok ({ s with
             categories := c :: s.categories,
             nextCategoryId := s.nextCategoryId + 1 }, c)
  | vs => .error (.validationError vs)

/-- Modelled from the spec and `blueprint.md` (PUT /categories/:id takes only
a name, type immutable): name update of an existing category, excluding the
category's own current name from the duplicate check. -/
def updateCategory (s : Store) (id : Nat) (name : String) :
    Except LedgerError (Store × Category) :=
  match findCategory s id with
  | none => .error .notFoundError
  | some c =>
    match validateCategoryName name with
    | [] =>
      if s.categories.any (fun d => d.name == name && d.id != id) then
        .error .duplicateNameError
      else
        .ok ({ s with
               categories := s.categories.map
                 (fun d => if d.id = id then { d with name := name } else d) },
             { c with name := name })
    | vs => .error (.validationError vs)

/-- Modelled from the spec: `delete` of the category registry guarded by the
reference count (spec sections 4.1 and 4.3) — `CategoryInUseError` carries
the exact count of referencing transactions. -/
def deleteCategory (s : Store) (id : Nat) : Except LedgerError Store :=
  match findCategory s id with
  | none => .error .notFoundError
  | some _ =>
    let n := refCount s id
    if 0 < n then .error (.categoryInUseError n)
    else .ok { s with categories := s.categories.filter (fun c => c.id != id) }

/-- Every mutating operation of the core, for stating properties that hold
at all times. -/
inductive Op where
  | createTx (amount : Int) (ty : TxType) (categoryId : Nat) (date : CalDate)
      (description : Option String)
  | updateTx (id : Nat) (p : TransactionPatch)
  | deleteTx (id : Nat)
  | createCat (name : String) (ty : TxType)
  | updateCat (id : Nat) (name : String)
  | deleteCat (id : Nat)

/-- Resulting store of an operation: the new store on success and the old
store unchanged on any failure (spec section 7: a failed validation or
integrity check leaves all state unchanged). -/
def applyOp (s : Store) : Op → Store
  | .createTx a ty cid d desc =>
    match createTransaction s a ty cid d desc with
    | .ok (s', _) => s'
    | .error _ => s
  | .updateTx id p =>
    match updateTransaction s id p with
    | .ok (s', _) => s'
    | .error _ => s
  | .deleteTx id =>
    match deleteTransaction s id with
    | .ok s' => s'
    | .error _ => s
  | .createCat n ty =>
    match createCategory s n ty with
    | .ok (s', _) => s'
    | .error _ => s
  | .updateCat id n =>
    match updateCategory s id n with
    | .ok (s', _) => s'
    | .error _ => s
  | .deleteCat id =>
    match deleteCategory s id with
    | .ok s' => s'
    | .error _ => s

/-- The cross-entity invariant: every stored transaction references an
existing category of the same direction. -/
def TypeConsistent (s : Store) : Prop :=
  ∀ t ∈ s.transactions, ∃ c ∈ s.categories, c.id = t.category_id ∧ c.ctype = t.ttype

/-- Filter specification of the query engine: optional type, optional set of
category ids, optional inclusive date bounds (spec section 4.5). -/
structure FilterSpec where
  ftype : Option TxType
  categoryIds : Option (List Nat)
  dateFrom : Option CalDate
  dateTo : Option CalDate
deriving DecidableEq, Repr

/-- Modelled from the spec: conjunction of the provided predicates; an absent
predicate restricts nothing and an empty category-id set is documented as
"no category filter" (spec section 4.5). -/
def matchesFilter (f : FilterSpec) (t : Transaction) : Bool :=
  (match f.ftype with
   | none => true
   | some ty => t.ttype == ty)
  && (match f.categoryIds with
      | none => true
      | some [] => true
      | some ids => ids.contains t.category_id)
  && (match f.dateFrom with
      | none => true
      | some d => decide (dateKey d ≤ dateKey t.date))
  && (match f.dateTo with
      | none => true
      | some d => decide (dateKey t.date ≤ dateKey d))

/-- Output comparison of the query engine: date descending, `created_at`
descending as the tie-break (`ORDER BY date DESC, created_at DESC` of
`phases.md`). -/
def txBefore (a b : Transaction) : Bool :=
  decide (dateKey b.date < dateKey a.date)
  || (decide (dateKey a.date = dateKey b.date) && decide (b.created_at ≤ a.created_at))

/-- Modelled from the spec: the query engine narrows the store by the filter
and returns the ordered sequence (spec sections 4.2 and 4.5); the sort is a
stable merge sort. -/
def queryTransactions (s : Store) (f : FilterSpec) : List Transaction :=
  (s.transactions.filter (matchesFilter f)).mergeSort txBefore

/-- Aggregate totals over a transaction subset, all in exact integer cents. -/
structure BalanceSummary where
  total_income : Int
  total_expense : Int
  net_balance : Int
  transaction_count : Nat
deriving DecidableEq, Repr

/-- One aggregation step: income adds to the income total and the balance,
expense adds to the expense total and subtracts from the balance. -/
def summaryStep (acc : BalanceSummary) (t : Transaction) : BalanceSummary :=
  match t.ttype with
  | .income =>
    { total_income := acc.total_income + t.amount,
      total_expense := acc.total_expense,
      net_balance := acc.net_balance + t.amount,
      transaction_count := acc.transaction_count + 1 }
  | .expense =>
    { total_income := acc.total_income,
      total_expense := acc.total_expense + t.amount,
      net_balance := acc.net_balance - t.amount,
      transaction_count := acc.transaction_count + 1 }

/-- Modelled from the spec: `get_balance_summary` of the aggregation engine
(spec section 4.6), a single exact-decimal pass over the subset. -/
def getBalanceSummary (l : List Transaction) : BalanceSummary :=
  l.foldl summaryStep
    { total_income := 0, total_expense := 0, net_balance := 0, transaction_count := 0 }

/-- Exact-decimal sum of the amounts of the transactions of one direction. -/
def typeTotal (l : List Transaction) (ty : TxType) : Int :=
  ((l.filter (fun t => t.ttype == ty)).map (fun t => t.amount)).sum

/-- Percentage of a type total taken by a group, an exact rational; a zero
total yields zero rather than a division by zero (spec section 4.6). -/
def groupPercentage (part : Int) (total : Int) : ℚ :=
  if total = 0 then 0 else (part * 100 : ℚ) / (total : ℚ)

/-- One row of the category breakdown (`CategorySummary` of
`frontend/src/types/index.ts`: summed amount, count, percentage). -/
structure CategoryGroup where
  category_id : Nat
  gtype : TxType
  amount : Int
  transaction_count : Nat
  percentage : ℚ
deriving DecidableEq, Repr

/-- Breakdown row of one category id over a subset. -/
def groupFor (l : List Transaction) (cid : Nat) : CategoryGroup :=
  let grp := l.filter (fun t => t.category_id == cid)
  let ty := match grp.head? with
            | some t => t.ttype
            | none => TxType.income
  let amt := (grp.map (fun t => t.amount)).sum
  { category_id := cid, gtype := ty, amount := amt,
    transaction_count := grp.length,
    percentage := groupPercentage amt (typeTotal l ty) }

/-- Modelled from the spec: the category breakdown of the aggregation engine
(spec section 4.6) — group by `category_id`, one row per referenced id. -/
def categoryBreakdown (l : List Transaction) : List CategoryGroup :=
  ((l.map (fun t => t.category_id)).dedup).map (groupFor l)

/-! ### Frontend API client (embedded from the Axios client source)

The definitions below follow the shipped TypeScript module that builds the
shared Axios instance: the response-interceptor rejection value, the error
message extraction and the `isApiError` type guard. -/

/-- Error response body of the API (`ErrorResponse` fields used by the
client: `message`, `error`, `details`, `timestamp`); every field may be
absent. -/
structure ErrorBody where
  message : Option String
  error : Option String
  details : Option String
  timestamp : Option String
deriving DecidableEq, Repr

/-- Axios failure as seen by the response interceptor: an optional server
response (status code and optional parsed body), whether the request object
exists (request sent, no response), and the error message string. -/
structure AxiosFailure where
  response : Option (Int × Option ErrorBody)
  hasRequest : Bool
  message : String
deriving DecidableEq, Repr

/-- Normalized error shape the interceptor rejects with (`ApiError` of the
client module, minus the opaque original-error pointer). -/
structure ApiErrorValue where
  status : Int
  message : String
  details : Option String
  timestamp : String
deriving DecidableEq, Repr

/-- JavaScript truthiness of an optional string field: present and
non-empty. -/
def truthyStr : Option String → Option String
  | some s => if s = "" then none else some s
  | none => none

/-- Fallback messages of `extractErrorMessage`, selected by status code. -/
def fallbackMessage (status : Int) : String :=
  if status = 400 then "Invalid request. Please check your input and try again."
  else if status = 404 then "The requested resource was not found."
  else if status = 422 then "Validation error. Please check the form fields."
  else if status = 500 then "Internal server error. Please try again later."
  else "Request failed with status " ++ toString status ++ "."

/-- Message extraction of the client: body `message` field when truthy, else
body `error` field when truthy, else the status-code fallback. -/
def extractErrorMessage (data : Option ErrorBody) (status : Int) : String :=
  match truthyStr (data.bind ErrorBody.message) with
  | some m => m
  | none =>
    match truthyStr (data.bind ErrorBody.error) with
    | some e => e
    | none => fallbackMessage status

/-- Rejection value produced by the response interceptor: a server response
keeps its status and extracted message; a sent request with no response is
status 0 with the fixed network message; a setup failure is status -1 with
the error's own message or the fixed fallback. -/
def rejectValue (e : AxiosFailure) (nowIso : String) : ApiErrorValue :=
  match e.response with
  | some (status, data) =>
    { status := status,
      message := extractErrorMessage data status,
      details := data.bind ErrorBody.details,
      timestamp := (data.bind ErrorBody.timestamp).getD nowIso }
  | none =>
    if e.hasRequest then
      { status := 0,
        message := "Network error. Please check your connection and try again.",
        details := none, timestamp := nowIso }
    else
      { status := -1,
        message := if e.message = "" then "An unexpected error occurred." else e.message,
        details := none, timestamp := nowIso }

/-- JavaScript value shape, as far as the `isApiError` guard inspects it:
an object with named fields, the null value, or a non-object. -/
inductive JsShape where
  | obj (fields : List String)
  | nullValue
  | nonObject
deriving DecidableEq, Repr

/-- Type guard of the client: an object, not null, with `status`, `message`
and `originalError` fields present. -/
def isApiError : JsShape → Bool
  | .obj fs => fs.contains "status" && fs.contains "message" && fs.contains "originalError"
  | .nullValue => false
  | .nonObject => false

/-- Field set of the object the interceptor rejects with; every branch builds
the same five-field literal (plus `originalError`). -/
def apiErrorShape (_ : ApiErrorValue) : JsShape :=
  .obj ["status", "message", "details", "timestamp", "originalError"]

/-- Decidability of the cross-entity invariant on concrete stores. -/
instance (s : Store) : Decidable (TypeConsistent s) :=
  inferInstanceAs (Decidable (∀ t ∈ s.transactions,
    ∃ c ∈ s.categories, c.id = t.category_id ∧ c.ctype = t.ttype))

/-- Description validity: absent, or trimmed length at most 500. -/
def DescOk : Option String → Prop
  | none => True
  | some s => (trimStr s).length ≤ 500

instance : ∀ d, Decidable (DescOk d)
  | none => .isTrue trivial
  | some s => inferInstanceAs (Decidable ((trimStr s).length ≤ 500))

/-! ### Helper lemmas on trimming -/

theorem dropWhile_idem {α : Type} (p : α → Bool) (l : List α) :
    (l.dropWhile p).dropWhile p = l.dropWhile p := by
  induction l with
  | nil => simp
  | cons a t ih =>
    by_cases h : p a
    · simpa [List.dropWhile_cons, h] using ih
    · simp [List.dropWhile_cons, h]

theorem dropWhile_eq_self_of_prefix {α : Type} (p : α → Bool) {l₁ l₂ : List α}
    (hpre : l₁ <+: l₂) (h : l₂.dropWhile p = l₂) : l₁.dropWhile p = l₁ := by
  cases l₁ with
  | nil => simp
  | cons a t =>
    obtain ⟨r, rfl⟩ := hpre
    rw [List.cons_append] at h
    by_cases hpa : p a
    · exfalso
      rw [List.dropWhile_cons, if_pos hpa] at h
      have hlen := congrArg List.length h
      have hle := (List.dropWhile_suffix (l := t ++ r) p).sublist.length_le
      simp only [List.length_cons] at hlen
      omega
    · rw [List.dropWhile_cons, if_neg hpa]

theorem trimChars_dropWhile (l : List Char) :
    (trimChars l).dropWhile Char.isWhitespace = trimChars l := by
  unfold trimChars
  refine dropWhile_eq_self_of_prefix Char.isWhitespace ?_ (dropWhile_idem _ l)
  have h2 : ((l.dropWhile Char.isWhitespace).reverse).dropWhile Char.isWhitespace
      <:+ (l.dropWhile Char.isWhitespace).reverse :=
    List.dropWhile_suffix _
  have h3 : ((((l.dropWhile Char.isWhitespace).reverse).dropWhile
        Char.isWhitespace).reverse).reverse
      <:+ (l.dropWhile Char.isWhitespace).reverse := by
    rwa [List.reverse_reverse]
  exact List.reverse_suffix.mp h3

theorem trimChars_idem (l : List Char) : trimChars (trimChars l) = trimChars l := by
  conv_lhs => rw [trimChars, trimChars_dropWhile]
  have hrev : (trimChars l).reverse =
      ((l.dropWhile Char.isWhitespace).reverse).dropWhile Char.isWhitespace := by
    rw [trimChars, List.reverse_reverse]
  rw [hrev, dropWhile_idem, ← hrev, List.reverse_reverse]

theorem trimStr_idem (s : String) : trimStr (trimStr s) = trimStr s := by
  unfold trimStr
  exact congrArg String.mk (trimChars_idem s.data)

/-! ### Helper lemmas on validation -/

theorem validateTransactionFields_eq_nil (today : CalDate) (a : Int) (d : CalDate)
    (desc : Option String) :
    validateTransactionFields today a d desc = [] ↔
      (0 < a ∧ a ≤ (amountMaxCents : Int) ∧ validDate d = true ∧
       dateKey d ≤ dateKey today ∧ DescOk desc) := by
  unfold validateTransactionFields
  rcases desc with _ | str <;>
    · simp only [DescOk, List.append_eq_nil]
      split_ifs <;> simp_all

theorem date_future_violation (today : CalDate) (a : Int) (d : CalDate)
    (desc : Option String) (hval : validDate d = true)
    (hfut : dateKey today < dateKey d) :
    ("date", "must not be in the future", "date_in_future") ∈
      validateTransactionFields today a d desc := by
  unfold validateTransactionFields
  simp [hval, hfut]

theorem date_invalid_violation (today : CalDate) (a : Int) (d : CalDate)
    (desc : Option String) (hval : validDate d = false) :
    ("date", "must be a valid calendar date", "date_invalid") ∈
      validateTransactionFields today a d desc := by
  unfold validateTransactionFields
  simp [hval]

/-! ### Helper lemmas on lookups -/

theorem findCategory_mem {s : Store} {id : Nat} {c : Category}
    (h : findCategory s id = some c) : c ∈ s.categories ∧ c.id = id := by
  refine ⟨List.mem_of_find?_eq_some h, ?_⟩
  have := List.find?_some h
  simpa using this

theorem findTransaction_mem {s : Store} {id : Nat} {t : Transaction}
    (h : findTransaction s id = some t) : t ∈ s.transactions ∧ t.id = id := by
  refine ⟨List.mem_of_find?_eq_some h, ?_⟩
  have := List.find?_some h
  simpa using this

/-! ### Inversion and equation lemmas for the operations -/

theorem resolveCategory_ok_inv {s : Store} {cid : Nat} {ty : TxType} {c : Category}
    (h : resolveCategory s cid ty = .ok c) :
    findCategory s cid = some c ∧ c.ctype = ty := by
  unfold resolveCategory at h
  split at h
  · exact absurd h (by simp)
  · rename_i c' hc'
    split at h
    · rename_i hty
      simp only [Except.ok.injEq] at h
      subst h
      exact ⟨hc', hty⟩
    · exact absurd h (by simp)

theorem createTransaction_ok_inv {s : Store} {a : Int} {ty : TxType} {cid : Nat}
    {d : CalDate} {desc : Option String} {s' : Store} {t : Transaction}
    (h : createTransaction s a ty cid d desc = .ok (s', t)) :
    validateTransactionFields s.today a d desc = [] ∧
    (∃ c, findCategory s cid = some c ∧ c.ctype = ty) ∧
    t = { id := s.nextTransactionId, amount := a, ttype := ty, category_id := cid,
          date := d, description := desc.map trimStr,
          created_at := s.clock, updated_at := s.clock } ∧
    s' = { s with
           transactions := t :: s.transactions,
           nextTransactionId := s.nextTransactionId + 1,
           clock := s.clock + 1 } := by
  unfold createTransaction at h
  split at h
  · rename_i hv
    split at h
    · exact absurd h (by simp)
    · rename_i c hc
      obtain ⟨hfind, hty⟩ := resolveCategory_ok_inv hc
      simp only [Except.ok.injEq, Prod.mk.injEq] at h
      obtain ⟨hs, ht⟩ := h
      exact ⟨hv, ⟨c, hfind, hty⟩, ht.symm, by rw [← hs, ← ht]⟩
  · exact absurd h (by simp)

theorem createTransaction_eq_ok {s : Store} {a : Int} {ty : TxType} {cid : Nat}
    {d : CalDate} {desc : Option String} {c : Category}
    (hv : validateTransactionFields s.today a d desc = [])
    (hc : findCategory s cid = some c) (hty : c.ctype = ty) :
    createTransaction s a ty cid d desc =
      .ok ({ s with
             transactions :=
               { id := s.nextTransactionId, amount := a, ttype := ty,
                 category_id := cid, date := d, description := desc.map trimStr,
                 created_at := s.clock, updated_at := s.clock } :: s.transactions,
             nextTransactionId := s.nextTransactionId + 1,
             clock := s.clock + 1 },
           { id := s.nextTransactionId, amount := a, ttype := ty,
             category_id := cid, date := d, description := desc.map trimStr,
             created_at := s.clock, updated_at := s.clock }) := by
  unfold createTransaction resolveCategory
  rw [hv, hc]
  simp [hty]

theorem createTransaction_validation_error {s : Store} {a : Int} {ty : TxType}
    {cid : Nat} {d : CalDate} {desc : Option String}
    (h : validateTransactionFields s.today a d desc ≠ []) :
    createTransaction s a ty cid d desc =
      .error (.validationError (validateTransactionFields s.today a d desc)) := by
  unfold createTransaction
  split
  · rename_i hv
    exact absurd hv h
  · rfl

theorem createTransaction_notFound {s : Store} {a : Int} {ty : TxType}
    {cid : Nat} {d : CalDate} {desc : Option String}
    (hv : validateTransactionFields s.today a d desc = [])
    (hc : findCategory s cid = none) :
    createTransaction s a ty cid d desc = .error .notFoundError := by
  unfold createTransaction resolveCategory
  rw [hv, hc]

theorem createTransaction_typeMismatch {s : Store} {a : Int} {ty : TxType}
    {cid : Nat} {d : CalDate} {desc : Option String} {c : Category}
    (hv : validateTransactionFields s.today a d desc = [])
    (hc : findCategory s cid = some c) (hty : c.ctype ≠ ty) :
    createTransaction s a ty cid d desc = .error .typeMismatchError := by
  unfold createTransaction resolveCategory
  rw [hv, hc]
  simp [hty]

theorem updateTransaction_ok_inv {s : Store} {id : Nat} {p : TransactionPatch}
    {s' : Store} {t' : Transaction}
    (h : updateTransaction s id p = .ok (s', t')) :
    ∃ t, findTransaction s id = some t ∧
      validateTransactionFields s.today (p.amount.getD t.amount) (p.date.getD t.date)
        (p.description.getD t.description) = [] ∧
      (∃ c, findCategory s (p.category_id.getD t.category_id) = some c ∧
        c.ctype = p.ttype.getD t.ttype) ∧
      t' = { id := t.id, amount := p.amount.getD t.amount, ttype := p.ttype.getD t.ttype,
             category_id := p.category_id.getD t.category_id, date := p.date.getD t.date,
             description := (p.description.getD t.description).map trimStr,
             created_at := t.created_at, updated_at := s.clock } ∧
      s' = { s with
             transactions := s.transactions.map (fun u => if u.id = id then t' else u),
             clock := s.clock + 1 } := by
  unfold updateTransaction at h
  split at h
  · exact absurd h (by simp)
  · rename_i t ht
    simp only [] at h
    split at h
    · rename_i hv
      split at h
      · exact absurd h (by simp)
      · rename_i c hc
        obtain ⟨hfind, hty⟩ := resolveCategory_ok_inv hc
        simp only [Except.ok.injEq, Prod.mk.injEq] at h
        obtain ⟨hs, ht'⟩ := h
        exact ⟨t, ht, hv, ⟨c, hfind, hty⟩, ht'.symm, by rw [← hs, ← ht']⟩
    · exact absurd h (by simp)

theorem updateTransaction_eq_ok {s : Store} {id : Nat} {p : TransactionPatch}
    {t : Transaction} {c : Category}
    (ht : findTransaction s id = some t)
    (hv : validateTransactionFields s.today (p.amount.getD t.amount) (p.date.getD t.date)
      (p.description.getD t.description) = [])
    (hc : findCategory s (p.category_id.getD t.category_id) = some c)
    (hty : c.ctype = p.ttype.getD t.ttype) :
    updateTransaction s id p =
      .ok ({ s with
             transactions := s.transactions.map (fun u => if u.id = id then
               { id := t.id, amount := p.amount.getD t.amount,
                 ttype := p.ttype.getD t.ttype,
                 category_id := p.category_id.getD t.category_id,
                 date := p.date.getD t.date,
                 description := (p.description.getD t.description).map trimStr,
                 created_at := t.created_at, updated_at := s.clock } else u),
             clock := s.clock + 1 },
           { id := t.id, amount := p.amount.getD t.amount, ttype := p.ttype.getD t.ttype,
             category_id := p.category_id.getD t.category_id, date := p.date.getD t.date,
             description := (p.description.getD t.description).map trimStr,
             created_at := t.created_at, updated_at := s.clock }) := by
  unfold updateTransaction resolveCategory
  rw [ht]
  simp only [hv, hc]
  simp [hty]

theorem updateTransaction_validation_error {s : Store} {id : Nat}
    {p : TransactionPatch} {t : Transaction}
    (ht : findTransaction s id = some t)
    (h : validateTransactionFields s.today (p.amount.getD t.amount) (p.date.getD t.date)
      (p.description.getD t.description) ≠ []) :
    updateTransaction s id p =
      .error (.validationError (validateTransactionFields s.today (p.amount.getD t.amount)
        (p.date.getD t.date) (p.description.getD t.description))) := by
  unfold updateTransaction
  rw [ht]
  simp only [h]

theorem updateTransaction_notFound_category {s : Store} {id : Nat}
    {p : TransactionPatch} {t : Transaction}
    (ht : findTransaction s id = some t)
    (hv : validateTransactionFields s.today (p.amount.getD t.amount) (p.date.getD t.date)
      (p.description.getD t.description) = [])
    (hc : findCategory s (p.category_id.getD t.category_id) = none) :
    updateTransaction s id p = .error .notFoundError := by
  unfold updateTransaction resolveCategory
  rw [ht]
  simp only [hv, hc]

theorem updateTransaction_typeMismatch {s : Store} {id : Nat}
    {p : TransactionPatch} {t : Transaction} {c : Category}
    (ht : findTransaction s id = some t)
    (hv : validateTransactionFields s.today (p.amount.getD t.amount) (p.date.getD t.date)
      (p.description.getD t.description) = [])
    (hc : findCategory s (p.category_id.getD t.category_id) = some c)
    (hty : c.ctype ≠ p.ttype.getD t.ttype) :
    updateTransaction s id p = .error .typeMismatchError := by
  unfold updateTransaction resolveCategory
  rw [ht]
  simp only [hv, hc]
  simp [hty]

theorem deleteTransaction_eq_ok {s : Store} {id : Nat} {t : Transaction}
    (ht : findTransaction s id = some t) :
    deleteTransaction s id =
      .ok { s with
            transactions := s.transactions.filter (fun u => u.id != id),
            clock := s.clock + 1 } := by
  unfold deleteTransaction
  rw [ht]

theorem deleteTransaction_notFound {s : Store} {id : Nat}
    (ht : findTransaction s id = none) :
    deleteTransaction s id = .error .notFoundError := by
  unfold deleteTransaction
  rw [ht]

theorem deleteTransaction_ok_inv {s : Store} {id : Nat} {s' : Store}
    (h : deleteTransaction s id = .ok s') :
    s' = { s with
           transactions := s.transactions.filter (fun u => u.id != id),
           clock := s.clock + 1 } := by
  unfold deleteTransaction at h
  split at h
  · exact absurd h (by simp)
  · simpa using h.symm

theorem createCategory_ok_inv {s : Store} {n : String} {ty : TxType}
    {s' : Store} {c : Category}
    (h : createCategory s n ty = .ok (s', c)) :
    c = { id := s.nextCategoryId, name := n, ctype := ty } ∧
    s' = { s with
           categories := c :: s.categories,
           nextCategoryId := s.nextCategoryId + 1 } := by
  unfold createCategory at h
  split at h
  · split at h
    · exact absurd h (by simp)
    · simp only [Except.ok.injEq, Prod.mk.injEq] at h
      obtain ⟨hs, hc⟩ := h
      exact ⟨hc.symm, by rw [← hs, ← hc]⟩
  · exact absurd h (by simp)

theorem updateCategory_ok_inv {s : Store} {id : Nat} {n : String}
    {s' : Store} {c' : Category}
    (h : updateCategory s id n = .ok (s', c')) :
    s' = { s with
           categories := s.categories.map
             (fun d => if d.id = id then { d with name := n } else d) } := by
  unfold updateCategory at h
  split at h
  · exact absurd h (by simp)
  · split at h
    · split at h
      · exact absurd h (by simp)
      · simp only [Except.ok.injEq, Prod.mk.injEq] at h
        exact h.1.symm
    · exact absurd h (by simp)

theorem deleteCategory_inUse {s : Store} {id : Nat} {c : Category}
    (hc : findCategory s id = some c) (h : 0 < refCount s id) :
    deleteCategory s id = .error (.categoryInUseError (refCount s id)) := by
  unfold deleteCategory
  rw [hc]
  simp [h]

theorem deleteCategory_ok_inv {s : Store} {id : Nat} {s' : Store}
    (h : deleteCategory s id = .ok s') :
    refCount s id = 0 ∧
    s' = { s with categories := s.categories.filter (fun c => c.id != id) } := by
  unfold deleteCategory at h
  split at h
  · exact absurd h (by simp)
  · simp only [] at h
    split at h
    · exact absurd h (by simp)
    · rename_i hn
      simp only [Except.ok.injEq] at h
      exact ⟨by omega, h.symm⟩

/-! ### Preservation of the cross-entity invariant -/

theorem typeConsistent_createTransaction {s : Store} {a : Int} {ty : TxType}
    {cid : Nat} {d : CalDate} {desc : Option String} {s' : Store} {t : Transaction}
    (hs : TypeConsistent s) (h : createTransaction s a ty cid d desc = .ok (s', t)) :
    TypeConsistent s' := by
  obtain ⟨-, ⟨c, hc, hty⟩, ht, hstore⟩ := createTransaction_ok_inv h
  obtain ⟨hcmem, hcid⟩ := findCategory_mem hc
  subst hstore
  intro u hu
  rcases List.mem_cons.mp hu with rfl | hold
  · exact ⟨c, hcmem, by rw [ht, hcid], by rw [ht, hty]⟩
  · exact hs u hold

theorem typeConsistent_updateTransaction {s : Store} {id : Nat}
    {p : TransactionPatch} {s' : Store} {t' : Transaction}
    (hs : TypeConsistent s) (h : updateTransaction s id p = .ok (s', t')) :
    TypeConsistent s' := by
  obtain ⟨t, -, -, ⟨c, hc, hty⟩, ht', hstore⟩ := updateTransaction_ok_inv h
  obtain ⟨hcmem, hcid⟩ := findCategory_mem hc
  subst hstore
  intro u hu
  obtain ⟨v, hv, hveq⟩ := List.mem_map.mp hu
  by_cases hvid : v.id = id
  · rw [if_pos hvid] at hveq
    exact ⟨c, hcmem, by rw [← hveq, ht', hcid], by rw [← hveq, ht', hty]⟩
  · rw [if_neg hvid] at hveq
    subst hveq
    exact hs v hv

theorem typeConsistent_deleteTransaction {s : Store} {id : Nat} {s' : Store}
    (hs : TypeConsistent s) (h : deleteTransaction s id = .ok s') :
    TypeConsistent s' := by
  have hstore := deleteTransaction_ok_inv h
  subst hstore
  intro u hu
  exact hs u (List.mem_of_mem_filter hu)

theorem typeConsistent_createCategory {s : Store} {n : String} {ty : TxType}
    {s' : Store} {c : Category}
    (hs : TypeConsistent s) (h : createCategory s n ty = .ok (s', c)) :
    TypeConsistent s' := by
  obtain ⟨-, hstore⟩ := createCategory_ok_inv h
  subst hstore
  intro u hu
  obtain ⟨c', hc', hid, hty⟩ := hs u hu
  exact ⟨c', List.mem_cons_of_mem _ hc', hid, hty⟩

theorem typeConsistent_updateCategory {s : Store} {id : Nat} {n : String}
    {s' : Store} {c' : Category}
    (hs : TypeConsistent s) (h : updateCategory s id n = .ok (s', c')) :
    TypeConsistent s' := by
  have hstore := updateCategory_ok_inv h
  subst hstore
  intro u hu
  obtain ⟨c, hc, hid, hty⟩ := hs u hu
  refine ⟨if c.id = id then { c with name := n } else c, List.mem_map_of_mem _ hc, ?_, ?_⟩
  · by_cases hcid : c.id = id
    · rw [if_pos hcid]
      exact hid
    · rw [if_neg hcid]
      exact hid
  · by_cases hcid : c.id = id
    · rw [if_pos hcid]
      exact hty
    · rw [if_neg hcid]
      exact hty

theorem typeConsistent_deleteCategory {s : Store} {id : Nat} {s' : Store}
    (hs : TypeConsistent s) (h : deleteCategory s id = .ok s') :
    TypeConsistent s' := by
  obtain ⟨hzero, hstore⟩ := deleteCategory_ok_inv h
  subst hstore
  intro u hu
  obtain ⟨c, hc, hid, hty⟩ := hs u hu
  refine ⟨c, List.mem_filter.mpr ⟨hc, ?_⟩, hid, hty⟩
  by_contra hne
  simp only [bne_iff_ne, ne_eq, not_not] at hne
  have hucount : u ∈ s.transactions.filter (fun t => t.category_id == id) := by
    refine List.mem_filter.mpr ⟨hu, ?_⟩
    simp [← hid, hne]
  have : 0 < refCount s id := by
    unfold refCount
    exact List.length_pos.mpr (List.ne_nil_of_mem hucount)
  omega

theorem typeConsistent_applyOp (s : Store) (op : Op)
    (hs : TypeConsistent s) : TypeConsistent (applyOp s op) := by
  cases op <;> unfold applyOp <;> dsimp only
  case createTx a ty cid d desc =>
    cases h : createTransaction s a ty cid d desc with
    | ok r =>
      cases r with
      | mk s' t => exact typeConsistent_createTransaction hs h
    | error e => exact hs
  case updateTx id p =>
    cases h : updateTransaction s id p with
    | ok r =>
      cases r with
      | mk s' t => exact typeConsistent_updateTransaction hs h
    | error e => exact hs
  case deleteTx id =>
    cases h : deleteTransaction s id with
    | ok s' => exact typeConsistent_deleteTransaction hs h
    | error e => exact hs
  case createCat n ty =>
    cases h : createCategory s n ty with
    | ok r =>
      cases r with
      | mk s' c => exact typeConsistent_createCategory hs h
    | error e => exact hs
  case updateCat id n =>
    cases h : updateCategory s id n with
    | ok r =>
      cases r with
      | mk s' c => exact typeConsistent_updateCategory hs h
    | error e => exact hs
  case deleteCat id =>
    cases h : deleteCategory s id with
    | ok s' => exact typeConsistent_deleteCategory hs h
    | error e => exact hs

/-! ### Helper lemmas on the query engine -/

theorem txBefore_total (a b : Transaction) : txBefore a b || txBefore b a := by
  simp only [txBefore, Bool.or_eq_true, Bool.and_eq_true, decide_eq_true_eq]
  omega

theorem txBefore_trans (a b c : Transaction) (h1 : txBefore a b = true)
    (h2 : txBefore b c = true) : txBefore a c = true := by
  simp only [txBefore, Bool.or_eq_true, Bool.and_eq_true, decide_eq_true_eq] at h1 h2 ⊢
  omega

/-- Strict version of the output order: distinct positions are strictly
ordered, so the position of every result element is forced. -/
def txStrictBefore (a b : Transaction) : Prop :=
  dateKey b.date < dateKey a.date ∨
    (dateKey a.date = dateKey b.date ∧ b.created_at < a.created_at)

theorem txBefore_strict {a b : Transaction} (h : txBefore a b = true)
    (hne : a.created_at ≠ b.created_at) : txStrictBefore a b := by
  simp only [txBefore, Bool.or_eq_true, Bool.and_eq_true, decide_eq_true_eq] at h
  unfold txStrictBefore
  omega

theorem txBefore_iff (a b : Transaction) :
    txBefore a b = true ↔
      (dateKey b.date ≤ dateKey a.date ∧
       (dateKey a.date = dateKey b.date → b.created_at ≤ a.created_at)) := by
  simp only [txBefore, Bool.or_eq_true, Bool.and_eq_true, decide_eq_true_eq]
  omega

theorem matchesFilter_iff (f : FilterSpec) (t : Transaction) :
    matchesFilter f t = true ↔
      ((∀ ty, f.ftype = some ty → t.ttype = ty) ∧
       (∀ ids, f.categoryIds = some ids → ids ≠ [] → t.category_id ∈ ids) ∧
       (∀ d, f.dateFrom = some d → dateKey d ≤ dateKey t.date) ∧
       (∀ d, f.dateTo = some d → dateKey t.date ≤ dateKey d)) := by
  rcases f with ⟨ft, fc, fd1, fd2⟩
  rcases fc with _ | ids
  · rcases ft with _ | ty <;> rcases fd1 with _ | d1 <;> rcases fd2 with _ | d2 <;>
      simp [matchesFilter, and_assoc]
  · rcases ids with _ | ⟨i, rest⟩ <;> rcases ft with _ | ty <;>
      rcases fd1 with _ | d1 <;> rcases fd2 with _ | d2 <;>
      simp [matchesFilter, and_assoc]

theorem queryTransactions_sorted (s : Store) (f : FilterSpec) :
    (queryTransactions s f).Pairwise (fun a b => txBefore a b = true) := by
  exact List.sorted_mergeSort (fun a b c => txBefore_trans a b c) txBefore_total
    (s.transactions.filter (matchesFilter f))

theorem queryTransactions_perm (s : Store) (f : FilterSpec) :
    (queryTransactions s f).Perm (s.transactions.filter (matchesFilter f)) :=
  List.mergeSort_perm _ _

theorem mem_queryTransactions (s : Store) (f : FilterSpec) (t : Transaction) :
    t ∈ queryTransactions s f ↔ t ∈ s.transactions ∧ matchesFilter f t = true := by
  unfold queryTransactions
  rw [List.mem_mergeSort, List.mem_filter]

theorem queryTransactions_strict (s : Store) (f : FilterSpec)
    (h : (s.transactions.map (fun t => t.created_at)).Nodup) :
    (queryTransactions s f).Pairwise txStrictBefore := by
  have hsor := queryTransactions_sorted s f
  have hperm := queryTransactions_perm s f
  have hnd : ((s.transactions.filter (matchesFilter f)).map (fun t => t.created_at)).Nodup :=
    List.Nodup.sublist
      ((List.filter_sublist s.transactions).map (fun t => t.created_at)) h
  have hndq : ((queryTransactions s f).map (fun t => t.created_at)).Nodup :=
    ((hperm.map _).nodup_iff).mpr hnd
  have hpneq : (queryTransactions s f).Pairwise
      (fun a b => a.created_at ≠ b.created_at) :=
    List.pairwise_map.mp hndq
  exact (hsor.and hpneq).imp (fun hab => txBefore_strict hab.1 hab.2)

theorem queryTransactions_empty (s : Store) (f : FilterSpec)
    (h : s.transactions.filter (matchesFilter f) = []) :
    queryTransactions s f = [] := by
  unfold queryTransactions
  rw [h, List.mergeSort_nil]

theorem queryTransactions_emptyIds (s : Store) (ft : Option TxType)
    (d1 d2 : Option CalDate) :
    queryTransactions s ⟨ft, some [], d1, d2⟩ =
      queryTransactions s ⟨ft, none, d1, d2⟩ := by
  unfold queryTransactions
  have hmatch : ∀ t, matchesFilter ⟨ft, some [], d1, d2⟩ t =
      matchesFilter ⟨ft, none, d1, d2⟩ t := fun t => rfl
  rw [List.filter_congr (fun t _ => hmatch t)]

/-! ### Helper lemmas on aggregation -/

theorem getBalanceSummary_foldl (l : List Transaction) (acc : BalanceSummary) :
    l.foldl summaryStep acc =
      { total_income := acc.total_income + typeTotal l .income,
        total_expense := acc.total_expense + typeTotal l .expense,
        net_balance := acc.net_balance + typeTotal l .income - typeTotal l .expense,
        transaction_count := acc.transaction_count + l.length } := by
  induction l generalizing acc with
  | nil => simp [typeTotal]
  | cons t rest ih =>
    rw [List.foldl_cons, ih]
    cases h : t.ttype <;>
      · simp only [summaryStep, h, typeTotal, List.filter_cons, List.length_cons]
        simp [BalanceSummary.mk.injEq]
        omega

theorem getBalanceSummary_spec (l : List Transaction) :
    getBalanceSummary l =
      { total_income := typeTotal l .income,
        total_expense := typeTotal l .expense,
        net_balance := typeTotal l .income - typeTotal l .expense,
        transaction_count := l.length } := by
  unfold getBalanceSummary
  rw [getBalanceSummary_foldl]
  simp

/-! ### Helper lemmas on the category breakdown -/

theorem groupFor_category_id (l : List Transaction) (cid : Nat) :
    (groupFor l cid).category_id = cid := rfl

theorem groupFor_amount (l : List Transaction) (cid : Nat) :
    (groupFor l cid).amount =
      ((l.filter (fun t => t.category_id == cid)).map (fun t => t.amount)).sum := rfl

theorem groupFor_count (l : List Transaction) (cid : Nat) :
    (groupFor l cid).transaction_count =
      (l.filter (fun t => t.category_id == cid)).length := rfl

theorem groupFor_percentage (l : List Transaction) (cid : Nat) :
    (groupFor l cid).percentage =
      groupPercentage (groupFor l cid).amount (typeTotal l (groupFor l cid).gtype) := rfl

theorem groupPercentage_zero (part : Int) : groupPercentage part 0 = 0 := by
  simp [groupPercentage]

theorem groupPercentage_ne_zero (part total : Int) (h : total ≠ 0) :
    groupPercentage part total = (part * 100 : ℚ) / (total : ℚ) := by
  simp [groupPercentage, h]

theorem mem_categoryBreakdown {l : List Transaction} {g : CategoryGroup}
    (h : g ∈ categoryBreakdown l) :
    g = groupFor l g.category_id ∧ ∃ t ∈ l, t.category_id = g.category_id := by
  unfold categoryBreakdown at h
  obtain ⟨cid, hcid, rfl⟩ := List.mem_map.mp h
  rw [groupFor_category_id]
  refine ⟨rfl, ?_⟩
  have := List.mem_dedup.mp hcid
  obtain ⟨t, ht, hteq⟩ := List.mem_map.mp this
  exact ⟨t, ht, hteq⟩

theorem categoryBreakdown_ids (l : List Transaction) :
    (categoryBreakdown l).map (fun g => g.category_id) =
      (l.map (fun t => t.category_id)).dedup := by
  unfold categoryBreakdown
  rw [List.map_map]
  have : ((fun g : CategoryGroup => g.category_id) ∘ groupFor l) = id := by
    funext cid
    rfl
  rw [this, List.map_id]

/-! ### Concrete fixtures for the witnesses -/

/-- Reference date of the demo store's clock. -/
def demoToday : CalDate := ⟨2024, 6, 1⟩

/-- Business date of the demo transactions. -/
def demoDate : CalDate := ⟨2024, 5, 20⟩

/-- Demo income category. -/
def catSalary : Category := ⟨1, "Salary", .income⟩

/-- Demo expense category. -/
def catGroceries : Category := ⟨2, "Groceries", .expense⟩

/-- Demo income transaction of 1000.00 (100000 cents). -/
def txIncome : Transaction := ⟨1, 100000, .income, 1, demoDate, none, 10, 10⟩

/-- Demo expense transaction of 500.50 (50050 cents). -/
def txExpense : Transaction := ⟨2, 50050, .expense, 2, demoDate, none, 11, 11⟩

/-- Demo store with two categories and two transactions. -/
def demoStore : Store :=
  ⟨[catSalary, catGroceries], [txIncome, txExpense], 3, 3, 12, demoToday⟩

/-- Transaction created by the demo round-trip create. -/
def demoTx3 : Transaction := ⟨3, 2500, .income, 1, ⟨2024, 5, 21⟩, some "note", 12, 12⟩

/-- Demo store after the demo round-trip create. -/
def demoStore1 : Store :=
  ⟨[catSalary, catGroceries], [demoTx3, txIncome, txExpense], 3, 4, 13, demoToday⟩

/-- The unrestricted filter. -/
def fAll : FilterSpec := ⟨none, none, none, none⟩

/-- Patch carrying a transaction's own current field values. -/
def selfPatch (t : Transaction) : TransactionPatch :=
  ⟨some t.amount, some t.ttype, some t.category_id, some t.date, some t.description⟩

/-! ### Claims -/

/-- C1: every stored transaction's type equals the type of its referenced
category at all times (the invariant holds after every operation applied to a
consistent store); a transaction create or update whose `category_id`
resolves to no category fails with `NotFoundError`, one whose resolved
category disagrees on type fails with `TypeMismatchError`, and no transaction
violating the equality is ever persisted. -/
theorem c1_transaction_category_type_consistency :
    (∀ (s : Store) (op : Op), TypeConsistent s → TypeConsistent (applyOp s op)) ∧
    (∀ (s : Store) (a : Int) (ty : TxType) (cid : Nat) (d : CalDate)
       (desc : Option String),
       validateTransactionFields s.today a d desc = [] →
       findCategory s cid = none →
       createTransaction s a ty cid d desc = .error .notFoundError) ∧
    (∀ (s : Store) (a : Int) (ty : TxType) (cid : Nat) (d : CalDate)
       (desc : Option String) (c : Category),
       validateTransactionFields s.today a d desc = [] →
       findCategory s cid = some c → c.ctype ≠ ty →
       createTransaction s a ty cid d desc = .error .typeMismatchError) ∧
    (∀ (s : Store) (id : Nat) (p : TransactionPatch) (t : Transaction),
       findTransaction s id = some t →
       validateTransactionFields s.today (p.amount.getD t.amount) (p.date.getD t.date)
         (p.description.getD t.description) = [] →
       findCategory s (p.category_id.getD t.category_id) = none →
       updateTransaction s id p = .error .notFoundError) ∧
    (∀ (s : Store) (id : Nat) (p : TransactionPatch) (t : Transaction) (c : Category),
       findTransaction s id = some t →
       validateTransactionFields s.today (p.amount.getD t.amount) (p.date.getD t.date)
         (p.description.getD t.description) = [] →
       findCategory s (p.category_id.getD t.category_id) = some c →
       c.ctype ≠ p.ttype.getD t.ttype →
       updateTransaction s id p = .error .typeMismatchError) := by
  refine ⟨typeConsistent_applyOp, ?_, ?_, ?_, ?_⟩
  · intro s a ty cid d desc hv hc
    exact createTransaction_notFound hv hc
  · intro s a ty cid d desc c hv hc hty
    exact createTransaction_typeMismatch hv hc hty
  · intro s id p t ht hv hc
    exact updateTransaction_notFound_category ht hv hc
  · intro s id p t c ht hv hc hty
    exact updateTransaction_typeMismatch ht hv hc hty

/-- Witness for C1 at a concrete store: the invariant survives a concrete
create, and a create against an absent category id fails with
`NotFoundError`. -/
theorem c1_witness :
    TypeConsistent (applyOp demoStore (.createTx 2500 .income 1 ⟨2024, 5, 21⟩ none)) ∧
    createTransaction demoStore 2500 .income 7 ⟨2024, 5, 21⟩ none =
      .error .notFoundError :=
  ⟨c1_transaction_category_type_consistency.1 demoStore
     (.createTx 2500 .income 1 ⟨2024, 5, 21⟩ none) (by decide),
   c1_transaction_category_type_consistency.2.1 demoStore 2500 .income 7
     ⟨2024, 5, 21⟩ none (by decide) (by decide)⟩

/-- C2: deleting a category that is still referenced always fails with
`CategoryInUseError` carrying exactly the number of transactions whose
`category_id` equals that id, the whole store (registry and transactions)
is left unchanged, and a delete succeeds only when zero referencing
transactions exist. -/
theorem c2_category_in_use_guard :
    (∀ (s : Store) (id : Nat) (c : Category),
       findCategory s id = some c → 0 < refCount s id →
       deleteCategory s id = .error (.categoryInUseError (refCount s id)) ∧
       applyOp s (.deleteCat id) = s) ∧
    (∀ (s : Store) (id : Nat) (s' : Store),
       deleteCategory s id = .ok s' → refCount s id = 0) := by
  constructor
  · intro s id c hc h
    refine ⟨deleteCategory_inUse hc h, ?_⟩
    simp only [applyOp]
    rw [deleteCategory_inUse hc h]
  · intro s id s' h
    exact (deleteCategory_ok_inv h).1

/-- Witness for C2 at the demo store: category 1 is referenced once, its
delete fails with count 1 and changes nothing. -/
theorem c2_witness :
    deleteCategory demoStore 1 = .error (.categoryInUseError (refCount demoStore 1)) ∧
    applyOp demoStore (.deleteCat 1) = demoStore :=
  c2_category_in_use_guard.1 demoStore 1 catSalary (by decide) (by decide)

/-- C3: over every transaction subset the net balance equals total income
minus total expense in exact integer-cents arithmetic, the totals are the
exact sums of the income-typed and expense-typed amounts, and the spec's
concrete instance (income 1000.00, expense 500.50) yields exactly 499.50
(49950 cents). -/
theorem c3_net_balance_exact :
    (∀ l : List Transaction,
       (getBalanceSummary l).net_balance =
         (getBalanceSummary l).total_income - (getBalanceSummary l).total_expense ∧
       (getBalanceSummary l).total_income = typeTotal l .income ∧
       (getBalanceSummary l).total_expense = typeTotal l .expense ∧
       (getBalanceSummary l).transaction_count = l.length) ∧
    getBalanceSummary [txIncome, txExpense] =
      { total_income := 100000, total_expense := 50050,
        net_balance := 49950, transaction_count := 2 } := by
  constructor
  · intro l
    rw [getBalanceSummary_spec]
    exact ⟨rfl, rfl, rfl, rfl⟩
  · decide

/-- C4: the query result is sorted by date descending with `created_at`
descending as the tie-break, its content is exactly the matching subset,
under distinct `created_at` instants the order is strict at every pair of
positions (total, never ambiguous), and an empty match yields the empty
sequence. -/
theorem c4_query_ordering :
    ∀ (s : Store) (f : FilterSpec),
      (queryTransactions s f).Pairwise (fun a b =>
        dateKey b.date ≤ dateKey a.date ∧
        (dateKey a.date = dateKey b.date → b.created_at ≤ a.created_at)) ∧
      (queryTransactions s f).Perm (s.transactions.filter (matchesFilter f)) ∧
      ((s.transactions.map (fun t => t.created_at)).Nodup →
        (queryTransactions s f).Pairwise txStrictBefore) ∧
      (s.transactions.filter (matchesFilter f) = [] → queryTransactions s f = []) := by
  intro s f
  refine ⟨?_, queryTransactions_perm s f, queryTransactions_strict s f,
    queryTransactions_empty s f⟩
  exact (queryTransactions_sorted s f).imp (fun h => (txBefore_iff _ _).mp h)

/-- Witness for C4 at the demo store: its `created_at` instants are distinct,
so the unrestricted query is strictly ordered. -/
theorem c4_witness :
    (queryTransactions demoStore fAll).Pairwise txStrictBefore :=
  (c4_query_ordering demoStore fAll).2.2.1 (by decide)

/-- C5: a transaction is in the query result exactly when it is stored and
satisfies every provided predicate (type, category set, inclusive date
bounds) — logical AND with absent predicates restricting nothing — and an
empty category-id set yields the very same result sequence as no category
filter at all. -/
theorem c5_filter_and_semantics :
    (∀ (s : Store) (f : FilterSpec) (t : Transaction),
       t ∈ queryTransactions s f ↔
         t ∈ s.transactions ∧
         (∀ ty, f.ftype = some ty → t.ttype = ty) ∧
         (∀ ids, f.categoryIds = some ids → ids ≠ [] → t.category_id ∈ ids) ∧
         (∀ d, f.dateFrom = some d → dateKey d ≤ dateKey t.date) ∧
         (∀ d, f.dateTo = some d → dateKey t.date ≤ dateKey d)) ∧
    (∀ (s : Store) (ft : Option TxType) (d1 d2 : Option CalDate),
       queryTransactions s ⟨ft, some [], d1, d2⟩ =
         queryTransactions s ⟨ft, none, d1, d2⟩) := by
  constructor
  · intro s f t
    rw [mem_queryTransactions, matchesFilter_iff]
  · intro s ft d1 d2
    exact queryTransactions_emptyIds s ft d1 d2

/-- Witness for C5 at the demo store: the empty category-id set returns the
same sequence as the absent category filter, and membership of the demo
income transaction in the unrestricted query follows from the
characterization. -/
theorem c5_witness :
    queryTransactions demoStore ⟨none, some [], none, none⟩ =
      queryTransactions demoStore ⟨none, none, none, none⟩ ∧
    txIncome ∈ queryTransactions demoStore fAll :=
  ⟨c5_filter_and_semantics.2 demoStore none none none,
   (c5_filter_and_semantics.1 demoStore fAll txIncome).mpr (by decide)⟩

/-- C6: transaction delete is a hard delete and not idempotent: deleting an
existing id succeeds and removes exactly that transaction (every other stored
transaction survives), after which the same id resolves to nothing and a
repeated delete fails with `NotFoundError` instead of succeeding silently. -/
theorem c6_delete_hard_not_idempotent :
    ∀ (s : Store) (id : Nat) (t : Transaction),
      findTransaction s id = some t →
      ∃ s', deleteTransaction s id = .ok s' ∧
        findTransaction s' id = none ∧
        (∀ u, u ∈ s'.transactions ↔ u ∈ s.transactions ∧ u.id ≠ id) ∧
        deleteTransaction s' id = .error .notFoundError := by
  intro s id t ht
  have hfind : findTransaction
      { s with
        transactions := s.transactions.filter (fun u => u.id != id),
        clock := s.clock + 1 } id = none := by
    unfold findTransaction
    simp only []
    rw [List.find?_eq_none]
    intro u hu
    have h2 := (List.mem_filter.mp hu).2
    simp only [bne_iff_ne, ne_eq] at h2
    simp [h2]
  refine ⟨_, deleteTransaction_eq_ok ht, hfind, ?_, deleteTransaction_notFound hfind⟩
  intro u
  simp only []
  rw [List.mem_filter]
  simp [bne_iff_ne]

/-- Witness for C6 at the demo store: transaction 1 exists, is removed by the
first delete, and the second delete of id 1 yields `NotFoundError`. -/
theorem c6_witness :
    ∃ s', deleteTransaction demoStore 1 = .ok s' ∧
      findTransaction s' 1 = none ∧
      (∀ u, u ∈ s'.transactions ↔ u ∈ demoStore.transactions ∧ u.id ≠ 1) ∧
      deleteTransaction s' 1 = .error .notFoundError :=
  c6_delete_hard_not_idempotent demoStore 1 txIncome (by decide)

/-- C7: a successful transaction update was validated and integrity-checked
against the merged record (stored fields overlaid with the provided ones),
sets `updated_at` to the current instant and keeps `created_at`; and the
round-trip of creating a transaction and immediately updating it with its own
current field values succeeds, keeps `created_at`, and preserves the
cross-entity invariant. -/
theorem c7_update_merged_validation :
    (∀ (s : Store) (id : Nat) (p : TransactionPatch) (s' : Store)
       (t' t : Transaction),
       findTransaction s id = some t →
       updateTransaction s id p = .ok (s', t') →
       validateTransactionFields s.today (p.amount.getD t.amount) (p.date.getD t.date)
         (p.description.getD t.description) = [] ∧
       (∃ c, findCategory s (p.category_id.getD t.category_id) = some c ∧
         c.ctype = p.ttype.getD t.ttype) ∧
       t'.created_at = t.created_at ∧ t'.updated_at = s.clock) ∧
    (∀ (s : Store) (a : Int) (ty : TxType) (cid : Nat) (d : CalDate)
       (desc : Option String) (s₁ : Store) (t : Transaction),
       TypeConsistent s →
       createTransaction s a ty cid d desc = .ok (s₁, t) →
       ∃ s₂ t', updateTransaction s₁ t.id (selfPatch t) = .ok (s₂, t') ∧
         t'.created_at = t.created_at ∧ TypeConsistent s₂) := by
  constructor
  · intro s id p s' t' t ht hok
    obtain ⟨t₀, ht₀, hv, hcat, ht', hs'⟩ := updateTransaction_ok_inv hok
    have hte : t₀ = t := Option.some.inj (ht₀.symm.trans ht)
    subst hte
    refine ⟨hv, hcat, ?_, ?_⟩
    · rw [ht']
    · rw [ht']
  · intro s a ty cid d desc s₁ t hs hok
    have hs₁tc := typeConsistent_createTransaction hs hok
    obtain ⟨hv, ⟨c, hc, hcty⟩, ht, hs₁⟩ := createTransaction_ok_inv hok
    have hta : t.amount = a := by rw [ht]
    have htty : t.ttype = ty := by rw [ht]
    have htcid : t.category_id = cid := by rw [ht]
    have htd : t.date = d := by rw [ht]
    have htdesc : t.description = desc.map trimStr := by rw [ht]
    have htoday : s₁.today = s.today := by rw [hs₁]
    have hcats : s₁.categories = s.categories := by rw [hs₁]
    have hfind : findTransaction s₁ t.id = some t := by
      rw [hs₁]
      unfold findTransaction
      simp only []
      exact List.find?_cons_of_pos _ (by simp)
    have hvmerged : validateTransactionFields s₁.today
        ((selfPatch t).amount.getD t.amount) ((selfPatch t).date.getD t.date)
        ((selfPatch t).description.getD t.description) = [] := by
      simp only [selfPatch, Option.getD_some]
      rw [htoday, hta, htd, htdesc]
      rw [validateTransactionFields_eq_nil] at hv ⊢
      obtain ⟨h1, h2, h3, h4, h5⟩ := hv
      refine ⟨h1, h2, h3, h4, ?_⟩
      cases desc with
      | none => trivial
      | some d₀ =>
        show (trimStr (trimStr d₀)).length ≤ 500
        rw [trimStr_idem]
        exact h5
    have hfc : findCategory s₁ ((selfPatch t).category_id.getD t.category_id) =
        some c := by
      simp only [selfPatch, Option.getD_some]
      rw [htcid]
      unfold findCategory
      rw [hcats]
      exact hc
    have hctyeq : c.ctype = (selfPatch t).ttype.getD t.ttype := by
      simp only [selfPatch, Option.getD_some]
      rw [htty]
      exact hcty
    have heq := updateTransaction_eq_ok hfind hvmerged hfc hctyeq
    exact ⟨_, _, heq, rfl, typeConsistent_updateTransaction hs₁tc heq⟩

/-- Witness for C7: the demo round-trip — create at the demo store, then
update with the created transaction's own field values. -/
theorem c7_witness :
    ∃ s₂ t', updateTransaction demoStore1 demoTx3.id (selfPatch demoTx3) =
        .ok (s₂, t') ∧
      t'.created_at = demoTx3.created_at ∧ TypeConsistent s₂ :=
  c7_update_merged_validation.2 demoStore 2500 .income 1 ⟨2024, 5, 21⟩
    (some " note ") demoStore1 demoTx3 (by decide) (by rfl)

/-- C8: transaction creation (and update) requires a valid calendar date not
strictly after today: every valid date up to today — arbitrarily far in the
past, no lower bound — is accepted, while a future or invalid date makes the
operation fail with a `ValidationError` whose violation list cites the
`date` field. -/
theorem c8_date_validation :
    ∀ (s : Store) (a : Int) (cid : Nat) (desc : Option String) (c : Category),
      0 < a → a ≤ (amountMaxCents : Int) → DescOk desc →
      findCategory s cid = some c →
      (∀ d : CalDate, validDate d = true → dateKey d ≤ dateKey s.today →
        ∃ s' t, createTransaction s a c.ctype cid d desc = .ok (s', t)) ∧
      (∀ d : CalDate, validDate d = true → dateKey s.today < dateKey d →
        createTransaction s a c.ctype cid d desc =
          .error (.validationError (validateTransactionFields s.today a d desc)) ∧
        ("date", "must not be in the future", "date_in_future") ∈
          validateTransactionFields s.today a d desc) ∧
      (∀ d : CalDate, validDate d = false →
        createTransaction s a c.ctype cid d desc =
          .error (.validationError (validateTransactionFields s.today a d desc)) ∧
        ("date", "must be a valid calendar date", "date_invalid") ∈
          validateTransactionFields s.today a d desc) ∧
      (∀ (id : Nat) (t : Transaction) (p : TransactionPatch) (d : CalDate),
        findTransaction s id = some t → p.date = some d → validDate d = true →
        dateKey s.today < dateKey d →
        updateTransaction s id p =
          .error (.validationError (validateTransactionFields s.today
            (p.amount.getD t.amount) d (p.description.getD t.description))) ∧
        ("date", "must not be in the future", "date_in_future") ∈
          validateTransactionFields s.today (p.amount.getD t.amount) d
            (p.description.getD t.description)) := by
  intro s a cid desc c hpos hmax hdesc hc
  refine ⟨?_, ?_, ?_, ?_⟩
  · intro d hvd hle
    have hv : validateTransactionFields s.today a d desc = [] :=
      (validateTransactionFields_eq_nil s.today a d desc).mpr
        ⟨hpos, hmax, hvd, hle, hdesc⟩
    exact ⟨_, _, createTransaction_eq_ok hv hc rfl⟩
  · intro d hvd hgt
    have hmem := date_future_violation s.today a d desc hvd hgt
    have hne : validateTransactionFields s.today a d desc ≠ [] := by
      intro h0
      rw [h0] at hmem
      exact absurd hmem (List.not_mem_nil _)
    exact ⟨createTransaction_validation_error hne, hmem⟩
  · intro d hvd
    have hmem := date_invalid_violation s.today a d desc hvd
    have hne : validateTransactionFields s.today a d desc ≠ [] := by
      intro h0
      rw [h0] at hmem
      exact absurd hmem (List.not_mem_nil _)
    exact ⟨createTransaction_validation_error hne, hmem⟩
  · intro id t p d ht hd hvd hgt
    have hmerged : p.date.getD t.date = d := by rw [hd]; rfl
    have hmem := date_future_violation s.today (p.amount.getD t.amount) d
      (p.description.getD t.description) hvd hgt
    have hne : validateTransactionFields s.today (p.amount.getD t.amount) d
        (p.description.getD t.description) ≠ [] := by
      intro h0
      rw [h0] at hmem
      exact absurd hmem (List.not_mem_nil _)
    constructor
    · have := updateTransaction_validation_error ht (by rw [hmerged]; exact hne)
      rwa [hmerged] at this
    · exact hmem

/-- Witness for C8 at the demo store: the arbitrarily old date 1900-01-01 is
accepted, while the future date 2024-07-01 is rejected citing `date`. -/
theorem c8_witness :
    (∃ s' t, createTransaction demoStore 2500 catSalary.ctype 1 ⟨1900, 1, 1⟩ none =
      .ok (s', t)) ∧
    ("date", "must not be in the future", "date_in_future") ∈
      validateTransactionFields demoStore.today 2500 ⟨2024, 7, 1⟩ none :=
  ⟨(c8_date_validation demoStore 2500 1 none catSalary (by decide) (by decide)
      (by decide) (by decide)).1 ⟨1900, 1, 1⟩ (by decide) (by decide),
   ((c8_date_validation demoStore 2500 1 none catSalary (by decide) (by decide)
      (by decide) (by decide)).2.1 ⟨2024, 7, 1⟩ (by decide) (by decide)).2⟩

/-- C9: the category breakdown groups by `category_id` (one row per
referenced id, exactly the ids occurring in the subset), each row carries the
summed amount and count of its group, and each row's percentage is its share
of its type's total with the share defined as 0 whenever that total is 0 —
the computation never divides by zero. -/
theorem c9_breakdown_grouping_no_div_zero :
    ∀ (l : List Transaction),
      ((categoryBreakdown l).map (fun g => g.category_id)).Nodup ∧
      (∀ cid, cid ∈ (categoryBreakdown l).map (fun g => g.category_id) ↔
        ∃ t ∈ l, t.category_id = cid) ∧
      (∀ g ∈ categoryBreakdown l,
        g.amount = ((l.filter (fun t => t.category_id == g.category_id)).map
          (fun t => t.amount)).sum ∧
        g.transaction_count =
          (l.filter (fun t => t.category_id == g.category_id)).length ∧
        (typeTotal l g.gtype = 0 → g.percentage = 0) ∧
        (typeTotal l g.gtype ≠ 0 →
          g.percentage = (g.amount * 100 : ℚ) / ((typeTotal l g.gtype : Int) : ℚ))) := by
  intro l
  refine ⟨?_, ?_, ?_⟩
  · rw [categoryBreakdown_ids]
    exact List.nodup_dedup _
  · intro cid
    rw [categoryBreakdown_ids, List.mem_dedup, List.mem_map]
  · intro g hg
    have hg' : g ∈ ((l.map (fun t => t.category_id)).dedup).map (groupFor l) := hg
    obtain ⟨cid, hcid, rfl⟩ := List.mem_map.mp hg'
    rw [groupFor_category_id]
    refine ⟨groupFor_amount l cid, groupFor_count l cid, ?_, ?_⟩
    · intro h0
      rw [groupFor_percentage, h0]
      exact groupPercentage_zero _
    · intro h0
      rw [groupFor_percentage, groupPercentage_ne_zero _ _ h0]

/-- Witness for C9 at the demo subset: the income group's percentage equals
its share of the income total, obtained through the theorem with a non-zero
type total. -/
theorem c9_witness :
    (groupFor [txIncome, txExpense] 1).percentage =
      ((groupFor [txIncome, txExpense] 1).amount * 100 : ℚ) /
        ((typeTotal [txIncome, txExpense] (groupFor [txIncome, txExpense] 1).gtype :
          Int) : ℚ) :=
  (((c9_breakdown_grouping_no_div_zero [txIncome, txExpense]).2.2
      (groupFor [txIncome, txExpense] 1)
      (by
        have hlist : categoryBreakdown [txIncome, txExpense] =
            [groupFor [txIncome, txExpense] 1, groupFor [txIncome, txExpense] 2] := by
          unfold categoryBreakdown
          rfl
        rw [hlist]
        exact List.mem_cons_self _ _)).2.2.2) (by decide)

/-- C10: every failure handed to the response interceptor rejects with a
normalized error whose status is the server's status code when a response
exists, 0 when the request was sent but no response arrived, and -1 when the
request could not be set up; the message comes from the body's `message`
field, else its `error` field, else a fixed fallback chosen by the status
code; and `isApiError` holds of every rejected value. -/
theorem c10_api_client_error_normalization :
    ∀ (e : AxiosFailure) (nowIso : String),
      (∀ st data, e.response = some (st, data) →
        (rejectValue e nowIso).status = st ∧
        (rejectValue e nowIso).message = extractErrorMessage data st) ∧
      (e.response = none → e.hasRequest = true →
        (rejectValue e nowIso).status = 0 ∧
        (rejectValue e nowIso).message =
          "Network error. Please check your connection and try again.") ∧
      (e.response = none → e.hasRequest = false →
        (rejectValue e nowIso).status = -1 ∧
        (rejectValue e nowIso).message =
          (if e.message = "" then "An unexpected error occurred." else e.message)) ∧
      (∀ data st m, data.bind ErrorBody.message = some m → m ≠ "" →
        extractErrorMessage data st = m) ∧
      (∀ data st m, truthyStr (data.bind ErrorBody.message) = none →
        data.bind ErrorBody.error = some m → m ≠ "" →
        extractErrorMessage data st = m) ∧
      (∀ data st, truthyStr (data.bind ErrorBody.message) = none →
        truthyStr (data.bind ErrorBody.error) = none →
        extractErrorMessage data st = fallbackMessage st) ∧
      isApiError (apiErrorShape (rejectValue e nowIso)) = true := by
  intro e nowIso
  refine ⟨?_, ?_, ?_, ?_, ?_, ?_, rfl⟩
  · intro st data hresp
    unfold rejectValue
    rw [hresp]
    exact ⟨rfl, rfl⟩
  · intro hresp hreq
    unfold rejectValue
    rw [hresp]
    simp [hreq]
  · intro hresp hreq
    unfold rejectValue
    rw [hresp]
    simp [hreq]
  · intro data st m hm hne
    unfold extractErrorMessage truthyStr
    rw [hm]
    simp [hne]
  · intro data st m hnone hm hne
    unfold extractErrorMessage
    rw [hnone, hm]
    unfold truthyStr
    simp [hne]
  · intro data st h1 h2
    unfold extractErrorMessage
    rw [h1, h2]

/-- Witness for C10: a concrete 404 failure with a body whose `error` field
carries the text rejects with status 404 and that extracted message. -/
theorem c10_witness :
    (rejectValue ⟨some (404, some ⟨none, some "boom", none, none⟩), true, ""⟩
      "T0").status = 404 ∧
    (rejectValue ⟨some (404, some ⟨none, some "boom", none, none⟩), true, ""⟩
      "T0").message = extractErrorMessage (some ⟨none, some "boom", none, none⟩) 404 :=
  (c10_api_client_error_normalization
    ⟨some (404, some ⟨none, some "boom", none, none⟩), true, ""⟩ "T0").1 404
    (some ⟨none, some "boom", none, none⟩) rfl

end ForgeLedger
